import Mathlib

/-!
# Verification of the python-barcode writer layer

Shallow embedding of the rendering/writer core of the `python-barcode`
repository (`barcode/writer.py`, `barcode/base.py`, `barcode/__init__.py`)
together with proofs about its specification.

Python floats are modelled as exact rationals; Python's `int(...)`
conversion (truncation towards zero) is modelled by `py_int`.
-/

namespace PyBarcode

/-- `mm2px` from `writer.py`: `(mm * dpi) / 25.4`. -/
def mm2px (mm : ℚ) (dpi : ℚ) : ℚ := (mm * dpi) / 25.4

/-- `pt2mm` from `writer.py`: `pt * 0.352777778`. -/
def pt2mm (pt : ℚ) : ℚ := pt * 0.352777778

/-- Python's `int(...)` applied to a float/rational: truncation towards zero. -/
def py_int (q : ℚ) : ℤ := if q < 0 then ⌈q⌉ else ⌊q⌋

/-- The writer options held by `BaseWriter` (defaults from
`BaseWriter.__init__` in `writer.py`). -/
structure Writer where
  module_width : ℚ := 10
  module_height : ℚ := 10
  font_size : ℚ := 10
  quiet_zone : ℚ := 6.5
  background : String := "white"
  foreground : String := "black"
  write_text : Bool := true
  text : String := ""
  human : String := ""
  text_distance : ℚ := 5
  text_line_distance : ℚ := 1
  center_text : Bool := true
deriving DecidableEq

/-- A fresh `BaseWriter` as produced by `BaseWriter.__init__`. -/
def baseWriterInit : Writer := {}

/-- The writer configured with `Barcode.default_writer_options` from
`base.py` (module_width 0.2 mm, module_height 15 mm, quiet_zone 6.5 mm,
font_size 10 pt, text_distance 5 mm). -/
def defaultOptionsWriter : Writer :=
  { module_width := 0.2
    module_height := 15.0
    quiet_zone := 6.5
    font_size := 10
    text_distance := 5.0
    background := "white"
    foreground := "black"
    write_text := true
    text := "" }

/-- `len(text.splitlines())` for text whose only line terminator is
the newline character: 0 for the empty string, otherwise the number of
newline characters plus one unless the text ends in a newline. -/
def splitlinesCount (s : String) : ℕ :=
  if s.data = [] then 0
  else s.data.count '\n' + (if s.data.getLast? = some '\n' then 0 else 1)

/-- `BaseWriter.calculate_size` from `writer.py`, translated line by line:
width `2*quiet_zone + modules_per_line*module_width`, height
`2.0 + module_height*number_of_lines` plus (when `font_size` and `text`
are both truthy) the text block, both converted to pixels by `int(mm2px _)`. -/
def calculate_size (w : Writer) (modules_per_line number_of_lines : ℕ)
    (dpi : ℚ) : ℤ × ℤ :=
  let width : ℚ := 2 * w.quiet_zone + (modules_per_line : ℚ) * w.module_width
  let height : ℚ := 2.0 + w.module_height * (number_of_lines : ℚ)
  let ntl : ℕ := splitlinesCount w.text
  let height : ℚ :=
    if w.font_size ≠ 0 ∧ w.text ≠ "" then
      height + (pt2mm w.font_size / (2 * dpi / 200) * (ntl : ℚ) + w.text_distance)
        + w.text_line_distance * ((ntl : ℚ) - 1)
    else height
  (py_int (mm2px width dpi), py_int (mm2px height dpi))

/-- The text block term of `calculate_size` in isolation (the millimetres
added to the height when `font_size` and `text` are both truthy). -/
def text_block_height (w : Writer) (dpi : ℚ) : ℚ :=
  let ntl : ℕ := splitlinesCount w.text
  if w.font_size ≠ 0 ∧ w.text ≠ "" then
    pt2mm w.font_size / (2 * dpi / 200) * (ntl : ℚ) + w.text_distance
      + w.text_line_distance * ((ntl : ℚ) - 1)
  else 0

/-- Modelled from the spec: the image size formula claimed in the spec,
width `2*quiet_zone + modules_per_line*module_width` and height
`number_of_lines*module_height + text block height` with no other
additive term, converted to device pixels via DPI. -/
def spec_calculate_size (w : Writer) (modules_per_line number_of_lines : ℕ)
    (dpi : ℚ) : ℤ × ℤ :=
  let width : ℚ := 2 * w.quiet_zone + (modules_per_line : ℚ) * w.module_width
  let height : ℚ := w.module_height * (number_of_lines : ℚ) + text_block_height w dpi
  (py_int (mm2px width dpi), py_int (mm2px height dpi))

/-- The writer of the C4 counterexample: default options but with
`write_text` disabled while a non-empty text is set. -/
def writerNoWriteText : Writer := { defaultOptionsWriter with write_text := false, text := "X" }

/-! ## The run-length encoding of `BaseWriter.render` -/

/-- The inner loop of `BaseWriter.render` building `mlist`: the line has
already been padded (`line += " "`), `c` is the running count (starting
at 1), and each index `i` with `line[i] != line[i+1]` flushes a signed
token (`c` if `line[i] == '1'`, else `-c`). -/
def mlistAux : List Char → ℕ → List ℤ
  | [], _ => []
  | [_], _ => []
  | a :: b :: rest, c =>
    if a = b then mlistAux (b :: rest) (c + 1)
    else (if a = '1' then (c : ℤ) else -(c : ℤ)) :: mlistAux (b :: rest) 1

/-- The signed run-length token list `mlist` computed by
`BaseWriter.render` for one line (`'11010111' -> [2, -1, 1, -1, 3]`). -/
def mlist (line : List Char) : List ℤ := mlistAux (line ++ [' ']) 1

/-- Expand one signed token back to modules: a positive token becomes a
run of `'1'` (bar), a non-positive one a run of `'0'` (space); the run
length is the token's absolute value. -/
def expandToken (t : ℤ) : List Char :=
  List.replicate t.natAbs (if 0 < t then '1' else '0')

/-- Reconstitute a module line from its signed run-length tokens. -/
def expand (ts : List ℤ) : List Char := (ts.map expandToken).flatten

/-- Sum of the absolute values of a token list. -/
def sumAbs (ts : List ℤ) : ℕ := (ts.map Int.natAbs).sum

/-- Two consecutive tokens have strictly alternating signs. -/
def altSigns (x y : ℤ) : Prop := (0 < x ∧ y < 0) ∨ (x < 0 ∧ 0 < y)

instance : DecidableRel altSigns := fun x y =>
  inferInstanceAs (Decidable ((0 < x ∧ y < 0) ∨ (x < 0 ∧ 0 < y)))

/-! ## The paint-event protocol of `BaseWriter.render` -/

/-- One callback invocation made by `BaseWriter.render`: either
`paint_module(xpos, ypos, width, color)` or `paint_text(xpos, ypos)`. -/
inductive PaintEvent where
  | module (xpos ypos width : ℚ) (color : String)
  | text (xpos ypos : ℚ)
deriving DecidableEq

/-- The module-painting loop of one line of `BaseWriter.render`: walks
the token list from horizontal position `xpos`, emitting one
`paint_module` event of width `module_width * |mod|` per token
(background color for tokens `< 1`, else foreground) and advancing
`xpos` by the painted width.  Returns the events and the final `xpos`. -/
def modulesEvents (w : Writer) (ypos : ℚ) : List ℤ → ℚ → List PaintEvent × ℚ
  | [], xpos => ([], xpos)
  | m :: ms, xpos =>
    let color := if m < 1 then w.background else w.foreground
    let width := w.module_width * (m.natAbs : ℚ)
    let r := modulesEvents w ypos ms (xpos + width)
    (PaintEvent.module xpos ypos width color :: r.1, r.2)

/-- The per-line loop of `BaseWriter.render`.  For each line: paint its
tokens starting at `quiet_zone`, record `bxs` (barcode x start) and
`bxe` (barcode x end), emit one trailing background module of
`quiet_zone` width unless the line is the last one, then advance `ypos`
by `module_height`.  Returns the events, the final `ypos`, and the
`bxs`/`bxe` of the last processed line. -/
def renderLines (w : Writer) : ℚ → ℚ → ℚ → List (List Char) →
    List PaintEvent × ℚ × ℚ × ℚ
  | ypos, bxs, bxe, [] => ([], ypos, bxs, bxe)
  | ypos, _, _, line :: rest =>
    let r := modulesEvents w ypos (mlist line) w.quiet_zone
    let es :=
      if rest ≠ [] then
        r.1 ++ [PaintEvent.module r.2 ypos w.quiet_zone w.background]
      else r.1
    let rec' := renderLines w (ypos + w.module_height) w.quiet_zone r.2 rest
    (es ++ rec'.1, rec'.2)

/-- `BaseWriter.render` as the list of paint events it emits: lines are
painted from `ypos = 1.0`; afterwards, when `self.text` is non-empty
(and a `paint_text` callback is registered, always the case for the
writers of this repository), one `paint_text` event is emitted at
`ypos + text_distance`, horizontally centered on the barcode body
(`bxs + (bxe - bxs)/2`) when `center_text` is set, else at `bxs`.
(Python leaves `bxs`/`bxe` unbound for an empty `code`; the placeholder
0 passed here is never exposed for non-empty `code`.) -/
def render (w : Writer) (code : List (List Char)) : List PaintEvent :=
  let r := renderLines w 1 0 0 code
  if w.text ≠ "" then
    let ypos := r.2.1 + w.text_distance
    let xpos :=
      if w.center_text then r.2.2.1 + (r.2.2.2 - r.2.2.1) / 2
      else r.2.2.1
    r.1 ++ [PaintEvent.text xpos ypos]
  else r.1

/-- The paint events of line number `p.1` (0-based, value `p.2`) of a
render pass over `n` lines whose first line sits at vertical position
`y0`, as a closed-form block: the line's module events at vertical
position `y0 + p.1 * module_height` starting at `quiet_zone`, followed
by the single trailing quiet-zone background event for every line but
the last. -/
def lineBlockFrom (w : Writer) (y0 : ℚ) (n : ℕ) (p : ℕ × List Char) : List PaintEvent :=
  (modulesEvents w (y0 + (p.1 : ℚ) * w.module_height) (mlist p.2) w.quiet_zone).1 ++
    (if p.1 + 1 ≠ n then
      [PaintEvent.module
        ((modulesEvents w (y0 + (p.1 : ℚ) * w.module_height) (mlist p.2) w.quiet_zone).2)
        (y0 + (p.1 : ℚ) * w.module_height) w.quiet_zone w.background]
     else [])

/-! ## `BaseWriter.set_options` -/

/-- A Python value assigned through `set_options`: the option dicts of
this repository hold numbers, strings, booleans and (for
`supported_file_types`) lists of strings. -/
inductive OptVal where
  | num (q : ℚ)
  | str (s : String)
  | flag (b : Bool)
  | strList (l : List String)
deriving DecidableEq

/-- Python's `key.lstrip("_")`: drop every leading underscore. -/
def lstripUnderscore (s : String) : String := ⟨s.data.dropWhile (· = '_')⟩

/-- The attribute names of the writer-option fields modelled by
`Writer` (the instance attributes set in `BaseWriter.__init__` that
carry the rendering options). -/
def writerAttrNames : List String :=
  ["module_width", "module_height", "font_size", "quiet_zone",
   "background", "foreground", "write_text", "text", "human",
   "text_distance", "text_line_distance", "center_text"]

/-- The public (not underscore-prefixed) methods of `BaseWriter`;
`hasattr(self, name)` is true for each, so `set_options` overwrites
them with the given value when such a key is passed. -/
def baseWriterMethodNames : List String :=
  ["calculate_size", "save", "register_callback", "set_options", "render"]

/-- Every attribute name of an `SVGWriter` instance (the default
backend) that a key stripped of its leading underscores can match.
`set_options` tests `hasattr(self, key.lstrip("_"))`; the stripped key
has no leading underscore, and the only attributes of the instance
without a leading underscore are: the twelve option fields, `compress`
and `dpi` (set in `SVGWriter.__init__`), `supported_file_types`, the
`file_type` property, and the public methods.  All remaining
attributes — `_callbacks`, `_file_type`, `_document`, `_root`,
`_group`, the underscore-named callback methods and every inherited
dunder — begin with an underscore and can never equal a stripped key. -/
def svgWriterHasattrNames : List String :=
  writerAttrNames ++ ["compress", "dpi", "supported_file_types", "file_type"]
    ++ baseWriterMethodNames

/-- `ValueError` as raised by the `file_type` property setter of
`BaseWriter` when the assigned file type is not supported. -/
inductive PyValueError where
  | valueError (file_type : String)
deriving DecidableEq

/-- The complete mutable state of an `SVGWriter` instance as `setattr`
can reach it through `set_options`: the option fields (`options`), the
`compress` and `dpi` attributes of `SVGWriter.__init__`, the
`supported_file_types` list, the `_file_type` backing field of the
`file_type` property (`none` until first set), and `instance_overrides`
recording instance attributes that now shadow class methods or hold a
value of a different type than the original field (Python's `setattr`
stores any value; the shadowed slots are never read back by the code
under verification, so only their presence is modelled). -/
structure WriterState where
  options : Writer
  compress : Bool
  dpi : ℚ
  supported_file_types : List String
  file_type : Option String
  instance_overrides : List (String × OptVal)
deriving DecidableEq

/-- A fresh `SVGWriter()`: `BaseWriter.__init__` defaults, then
`compress = False`, `dpi = 25.4`, `supported_file_types = ["SVG"]` and
`file_type = "SVG"` (via the property setter). -/
def svgWriterInit : WriterState :=
  { options := baseWriterInit
    compress := false
    dpi := 25.4
    supported_file_types := ["SVG"]
    file_type := some "SVG"
    instance_overrides := [] }

/-- Record an instance attribute written by `setattr` that shadows a
class method or replaces a field with a value of another type. -/
def setInstanceAttr (st : WriterState) (k : String) (v : OptVal) : WriterState :=
  { st with instance_overrides := (k, v) :: st.instance_overrides }

/-- One iteration of `BaseWriter.set_options`: strip leading
underscores from the key; when `hasattr(self, key)` holds, perform
`setattr(self, key, val)` — updating the named field, overwriting a
method slot, or (for the `file_type` property) running the setter,
which raises `ValueError` unless the value is a supported file type —
and otherwise leave the writer unchanged.  No branch reports an
unknown key: it is dropped silently. -/
def setOption (st : WriterState) (key : String) (v : OptVal) :
    Except PyValueError WriterState :=
  let k := lstripUnderscore key
  if k = "module_width" then
    Except.ok (match v with
      | .num q => { st with options := { st.options with module_width := q } }
      | _ => setInstanceAttr st k v)
  else if k = "module_height" then
    Except.ok (match v with
      | .num q => { st with options := { st.options with module_height := q } }
      | _ => setInstanceAttr st k v)
  else if k = "font_size" then
    Except.ok (match v with
      | .num q => { st with options := { st.options with font_size := q } }
      | _ => setInstanceAttr st k v)
  else if k = "quiet_zone" then
    Except.ok (match v with
      | .num q => { st with options := { st.options with quiet_zone := q } }
      | _ => setInstanceAttr st k v)
  else if k = "background" then
    Except.ok (match v with
      | .str s => { st with options := { st.options with background := s } }
      | _ => setInstanceAttr st k v)
  else if k = "foreground" then
    Except.ok (match v with
      | .str s => { st with options := { st.options with foreground := s } }
      | _ => setInstanceAttr st k v)
  else if k = "write_text" then
    Except.ok (match v with
      | .flag b => { st with options := { st.options with write_text := b } }
      | _ => setInstanceAttr st k v)
  else if k = "text" then
    Except.ok (match v with
      | .str s => { st with options := { st.options with text := s } }
      | _ => setInstanceAttr st k v)
  else if k = "human" then
    Except.ok (match v with
      | .str s => { st with options := { st.options with human := s } }
      | _ => setInstanceAttr st k v)
  else if k = "text_distance" then
    Except.ok (match v with
      | .num q => { st with options := { st.options with text_distance := q } }
      | _ => setInstanceAttr st k v)
  else if k = "text_line_distance" then
    Except.ok (match v with
      | .num q => { st with options := { st.options with text_line_distance := q } }
      | _ => setInstanceAttr st k v)
  else if k = "center_text" then
    Except.ok (match v with
      | .flag b => { st with options := { st.options with center_text := b } }
      | _ => setInstanceAttr st k v)
  else if k = "compress" then
    Except.ok (match v with
      | .flag b => { st with compress := b }
      | _ => setInstanceAttr st k v)
  else if k = "dpi" then
    Except.ok (match v with
      | .num q => { st with dpi := q }
      | _ => setInstanceAttr st k v)
  else if k = "supported_file_types" then
    Except.ok (match v with
      | .strList l => { st with supported_file_types := l }
      | _ => setInstanceAttr st k v)
  else if k = "file_type" then
    match v with
    | .str s =>
      if s ∈ st.supported_file_types then Except.ok { st with file_type := some s }
      else Except.error (PyValueError.valueError s)
    | _ => Except.error (PyValueError.valueError "")
  else if k ∈ baseWriterMethodNames then
    Except.ok (setInstanceAttr st k v)
  else
    Except.ok st

/-- `BaseWriter.set_options`: apply `setOption` to the option items in
order; an exception raised by the `file_type` property setter aborts
the loop and propagates to the caller.  No `UnsupportedOption` error
exists anywhere in this control flow. -/
def set_options (st : WriterState) (options : List (String × OptVal)) :
    Except PyValueError WriterState :=
  match options with
  | [] => Except.ok st
  | (k, v) :: rest =>
    match setOption st k v with
    | Except.ok st' => set_options st' rest
    | Except.error e => Except.error e

/-! ## The symbology registry (`barcode/__init__.py`) -/

/-- The barcode classes named in `__BARCODE_MAP`. -/
inductive Symbology where
  | EAN8 | EAN13 | EAN14 | JAN | UPCA | ISBN13 | ISBN10 | ISSN
  | Code39 | PZN | Code128 | ITF | Gs1_128
deriving DecidableEq

/-- `__BARCODE_MAP` from `barcode/__init__.py`. -/
def BARCODE_MAP : List (String × Symbology) :=
  [("ean8", .EAN8), ("ean13", .EAN13), ("ean", .EAN13), ("gtin", .EAN14),
   ("ean14", .EAN14), ("jan", .JAN), ("upc", .UPCA), ("upca", .UPCA),
   ("isbn", .ISBN13), ("isbn13", .ISBN13), ("gs1", .ISBN13),
   ("isbn10", .ISBN10), ("issn", .ISSN), ("code39", .Code39),
   ("pzn", .PZN), ("code128", .Code128), ("itf", .ITF),
   ("gs1_128", .Gs1_128)]

/-- Python's `str.lower()` restricted to the ASCII range (the registry
keys are ASCII); maps every character through `Char.toLower`. -/
def pyLower (s : String) : String := ⟨s.data.map Char.toLower⟩

/-- The typed error raised by `get`: `BarcodeNotFoundError` (the spec's
`UnknownSymbology`), carrying the offending name. -/
inductive BarcodeError where
  | barcodeNotFound (name : String)
deriving DecidableEq

/-- `get` from `barcode/__init__.py`, restricted to the registry lookup
(the `code is None` path returning the class): looks up `name.lower()`
in `__BARCODE_MAP`; a missing key raises `BarcodeNotFoundError`. -/
def get (name : String) : Except BarcodeError Symbology :=
  match BARCODE_MAP.lookup (pyLower name) with
  | some b => Except.ok b
  | none => Except.error (BarcodeError.barcodeNotFound name)

/-! ## The SVG backend (`SVGWriter`) -/

/-- One child element of the `barcode_group` group of the SVG document
(after the full-canvas background rectangle): a `rect` per
`paint_module` event, a `text` element per line of text. -/
inductive SVGElem where
  | rect (x y width height : ℚ) (fill : String)
  | textElem (x y : ℚ) (fontSize : ℚ) (fill : String) (content : String)
deriving DecidableEq

/-- The SVG document built by `SVGWriter` (attribute serialisation to
byte strings is deterministic in the source and elided here): canvas
size in pixels, the version comment, the background rectangle's fill
and the group's painted elements in emission order. -/
structure SVGDoc where
  widthPx : ℤ
  heightPx : ℤ
  comment : String
  backgroundFill : String
  elements : List SVGElem
deriving DecidableEq

/-- The module-level `COMMENT` constant of `writer.py`
(version string elided). -/
def svgComment : String := "Autogenerated with python-barcode"

/-- `SVGWriter._init`: discards any previous document and starts a
fresh one sized by `calculate_size(len(code[0]), len(code), dpi)`. -/
def svgInit (w : Writer) (dpi : ℚ) (code : List (List Char)) : SVGDoc :=
  let size := calculate_size w (code.headI.length) code.length dpi
  { widthPx := size.1
    heightPx := size.2
    comment := svgComment
    backgroundFill := w.background
    elements := [] }

/-- `SVGWriter._create_text`: one `text` element per `"\n"`-separated
line of the text (`self.human` when non-empty, else `self.text`), the
vertical position advancing by `pt2mm(font_size) + text_line_distance`
per line. -/
def svgTextElems (w : Writer) : List String → ℚ → ℚ → List SVGElem
  | [], _, _ => []
  | s :: rest, xpos, ypos =>
    SVGElem.textElem xpos ypos w.font_size w.foreground s ::
      svgTextElems w rest xpos (ypos + pt2mm w.font_size + w.text_line_distance)

/-- Apply one paint event to the document under construction:
`_create_module` appends a `rect` of height `module_height`,
`_create_text` appends the `text` elements. -/
def svgApply (w : Writer) (doc : SVGDoc) (e : PaintEvent) : SVGDoc :=
  match e with
  | .module xpos ypos width color =>
    { doc with elements := doc.elements ++ [SVGElem.rect xpos ypos width w.module_height color] }
  | .text xpos ypos =>
    let t := if w.human ≠ "" then w.human else w.text
    { doc with elements := doc.elements ++ svgTextElems w (t.splitOn "\n") xpos ypos }

/-- One complete `SVGWriter` render pass: the writer's mutable document
state `st` (the `_document`/`_root`/`_group` fields left over from any
earlier pass) is overwritten by `_init`, the paint events of
`BaseWriter.render` are applied in order, and `_finish` returns the
document, which also remains as the writer's new state. -/
def svgRun (w : Writer) (dpi : ℚ) (st : Option SVGDoc)
    (code : List (List Char)) : SVGDoc × Option SVGDoc :=
  let d0 := svgInit w dpi code
  let d1 := (render w code).foldl (svgApply w) d0
  (d1, some d1)

/-! ## `Barcode.write` (`barcode/base.py`) -/

/-- A Python exception relevant to `Barcode.write`. -/
inductive PyExc where
  | nameError (name : String)
deriving DecidableEq

/-- The local names in scope in the body of `Barcode.write`: its
parameters. The body assigns `output` only after the failing call. -/
def writeLocalNames : List String := ["self", "fp", "text"]

/-- The module-level globals of `barcode/base.py`. -/
def baseModuleGlobals : List String := ["SVGWriter", "Barcode"]

/-- The Python builtins consulted after locals and globals (the ones a
name in this body could fall back to; `options` is not a builtin). -/
def pyBuiltins : List String := ["print", "len", "open", "hasattr", "isinstance", "format"]

/-- Python name resolution: locals, then globals, then builtins; an
unbound name raises `NameError`. -/
def resolveName (locals globals builtins : List String) (n : String) :
    Except PyExc String :=
  if n ∈ locals then Except.ok n
  else if n ∈ globals then Except.ok n
  else if n ∈ builtins then Except.ok n
  else Except.error (PyExc.nameError n)

/-- `Barcode.write(fp, text)` from `base.py`: its first statement is
`output = self.render(options, text)`, so the argument expression
`options` is resolved before anything is written to `fp`.  The
behaviour of `render` itself is abstracted as `renderFn`; the returned
list is the data written to `fp`. -/
def Barcode_write (renderFn : String → Except PyExc String)
    (text : Option String) : List String × Except PyExc Unit :=
  match resolveName writeLocalNames baseModuleGlobals pyBuiltins "options" with
  | Except.error e => ([], Except.error e)
  | Except.ok v =>
    match renderFn (v ++ (text.getD "")) with
    | Except.error e => ([], Except.error e)
    | Except.ok out => ([out], Except.ok ())

/-- Writer used for concrete text-rendering instances. -/
def textWriter : Writer := { defaultOptionsWriter with text := "x" }

/-! ## Theorems -/

theorem replicate_pred_append (c : ℕ) (hc : 0 < c) (a : Char) (L : List Char) :
    List.replicate (c - 1) a ++ a :: L = List.replicate c a ++ L := by
  conv_rhs => rw [← Nat.succ_pred_eq_of_pos hc]
  rw [List.replicate_succ']
  simp

theorem expand_cons (t : ℤ) (ts : List ℤ) :
    expand (t :: ts) = expandToken t ++ expand ts := by
  simp [expand]

theorem expandToken_pos (c : ℕ) (hc : 0 < c) :
    expandToken (c : ℤ) = List.replicate c '1' := by
  have h : (0 : ℤ) < (c : ℤ) := by exact_mod_cast hc
  simp [expandToken, h]

theorem expandToken_neg (c : ℕ) (hc : 0 < c) :
    expandToken (-(c : ℤ)) = List.replicate c '0' := by
  have h : ¬ (0 : ℤ) < -(c : ℤ) := by omega
  simp [expandToken, h]

theorem mlistAux_cons₂ (a b : Char) (rest : List Char) (c : ℕ) :
    mlistAux (a :: b :: rest) c =
      if a = b then mlistAux (b :: rest) (c + 1)
      else (if a = '1' then (c : ℤ) else -(c : ℤ)) :: mlistAux (b :: rest) 1 := rfl

theorem mlistAux_expand (rest : List Char) : ∀ (a : Char) (c : ℕ),
    (a = '0' ∨ a = '1') → (∀ x ∈ rest, x = '0' ∨ x = '1') → 0 < c →
    expand (mlistAux ((a :: rest) ++ [' ']) c) =
      List.replicate (c - 1) a ++ a :: rest := by
  induction rest with
  | nil =>
    intro a c ha _ hc
    have hne : a ≠ ' ' := by rcases ha with h | h <;> simp [h]
    rw [replicate_pred_append c hc]
    simp only [List.cons_append, List.nil_append, mlistAux, if_neg hne]
    rcases ha with h | h <;> subst h
    · rw [if_neg (by decide), expand_cons, expandToken_neg c hc]
      simp [expand]
    · rw [if_pos rfl, expand_cons, expandToken_pos c hc]
      simp [expand]
  | cons b rest' ih =>
    intro a c ha hrest hc
    have hb : b = '0' ∨ b = '1' := hrest b (by simp)
    have hrest' : ∀ x ∈ rest', x = '0' ∨ x = '1' := fun x hx => hrest x (by simp [hx])
    rw [replicate_pred_append c hc]
    by_cases hab : a = b
    · subst hab
      simp only [List.cons_append]
      rw [mlistAux_cons₂, if_pos rfl, ← List.cons_append,
        ih a (c + 1) hb hrest' (by omega), replicate_pred_append (c + 1) (by omega)]
      rw [List.replicate_succ', List.append_assoc, List.singleton_append]
    · simp only [List.cons_append]
      rw [mlistAux_cons₂, if_neg hab, expand_cons, ← List.cons_append,
        ih b 1 hb hrest' one_pos]
      simp only [Nat.sub_self, List.replicate_zero, List.nil_append]
      rcases ha with h | h <;> subst h
      · rw [if_neg (by decide), expandToken_neg c hc]
      · rw [if_pos rfl, expandToken_pos c hc]

theorem expand_mlist (line : List Char) (h : ∀ x ∈ line, x = '0' ∨ x = '1') :
    expand (mlist line) = line := by
  cases line with
  | nil => rfl
  | cons a rest =>
    have := mlistAux_expand rest a 1 (h a (by simp))
      (fun x hx => h x (by simp [hx])) one_pos
    simpa [mlist] using this

theorem expand_length (ts : List ℤ) : (expand ts).length = sumAbs ts := by
  induction ts with
  | nil => rfl
  | cons t ts ih =>
    simp only [expand, List.map_cons, List.flatten_cons, List.length_append,
      expandToken, List.length_replicate, sumAbs, List.sum_cons]
    simp only [expand, sumAbs] at ih
    omega

theorem sumAbs_mlist (line : List Char) (h : ∀ x ∈ line, x = '0' ∨ x = '1') :
    sumAbs (mlist line) = line.length := by
  rw [← expand_length, expand_mlist line h]

theorem mlistAux_alt (rest : List Char) : ∀ (a : Char) (c : ℕ),
    (a = '0' ∨ a = '1') → (∀ x ∈ rest, x = '0' ∨ x = '1') → 0 < c →
    ∃ t ts, mlistAux ((a :: rest) ++ [' ']) c = t :: ts ∧
      (if a = '1' then 0 < t else t < 0) ∧ List.Chain' altSigns (t :: ts) := by
  induction rest with
  | nil =>
    intro a c ha _ hc
    have hne : a ≠ ' ' := by rcases ha with h | h <;> simp [h]
    refine ⟨if a = '1' then (c : ℤ) else -(c : ℤ), [], ?_, ?_, ?_⟩
    · simp only [List.cons_append, List.nil_append]
      rw [mlistAux_cons₂, if_neg hne]
      rfl
    · by_cases h1 : a = '1' <;> simp [h1] <;> omega
    · exact List.chain'_singleton _
  | cons b rest' ih =>
    intro a c ha hrest hc
    have hb : b = '0' ∨ b = '1' := hrest b (by simp)
    have hrest' : ∀ x ∈ rest', x = '0' ∨ x = '1' := fun x hx => hrest x (by simp [hx])
    by_cases hab : a = b
    · subst hab
      obtain ⟨t, ts, heq, hsign, hchain⟩ := ih a (c + 1) hb hrest' (by omega)
      refine ⟨t, ts, ?_, hsign, hchain⟩
      simp only [List.cons_append]
      rw [mlistAux_cons₂, if_pos rfl, ← List.cons_append]
      exact heq
    · obtain ⟨t, ts, heq, hsign, hchain⟩ := ih b 1 hb hrest' one_pos
      refine ⟨if a = '1' then (c : ℤ) else -(c : ℤ), t :: ts, ?_, ?_, ?_⟩
      · simp only [List.cons_append]
        rw [mlistAux_cons₂, if_neg hab, ← List.cons_append, heq]
      · by_cases h1 : a = '1' <;> simp [h1] <;> omega
      · refine List.chain'_cons.mpr ⟨?_, hchain⟩
        rcases ha with h | h <;> rcases hb with h2 | h2 <;> subst h <;> subst h2
        · exact absurd rfl hab
        · refine Or.inr ⟨?_, ?_⟩
          · rw [if_neg (by decide)]; omega
          · simpa using hsign
        · refine Or.inl ⟨?_, ?_⟩
          · rw [if_pos rfl]; omega
          · simpa using hsign
        · exact absurd rfl hab

/-- C1: for a line of `'0'`/`'1'` characters, the signed run-length
tokens computed by `BaseWriter.render` reconstitute the line
character-for-character when each token is expanded to its
absolute-value count of modules with the sign dictating the color; the
tokens alternate in sign and their absolute values sum to the line
length. -/
theorem mlist_roundtrip (line : List Char) (h : ∀ x ∈ line, x = '0' ∨ x = '1') :
    expand (mlist line) = line ∧ List.Chain' altSigns (mlist line) ∧
      sumAbs (mlist line) = line.length := by
  refine ⟨expand_mlist line h, ?_, sumAbs_mlist line h⟩
  cases line with
  | nil => simp [mlist, mlistAux]
  | cons a rest =>
    obtain ⟨t, ts, heq, _, hchain⟩ := mlistAux_alt rest a 1 (h a (by simp))
      (fun x hx => h x (by simp [hx])) one_pos
    rw [mlist, heq]
    exact hchain

/-- Witness for C1 at the line `"11010111"` used as example in the
source comment (tokens `[2, -1, 1, -1, 3]`). -/
theorem mlist_roundtrip_instance :
    (∀ x ∈ "11010111".data, x = '0' ∨ x = '1') ∧
      (expand (mlist "11010111".data) = "11010111".data ∧
        List.Chain' altSigns (mlist "11010111".data) ∧
        sumAbs (mlist "11010111".data) = "11010111".data.length) :=
  ⟨by decide, mlist_roundtrip "11010111".data (by decide)⟩

/-- C2 counterexample: at the default options (95 modules, 1 line,
DPI 300) the height computed by `calculate_size` (200 px, from
`2.0 + 15.0` mm) differs from the spec formula's height (177 px, from
`15.0` mm): the code adds a constant 2.0 mm term the claim excludes. -/
theorem calculate_size_ne_spec_size :
    calculate_size defaultOptionsWriter 95 1 300 ≠
      spec_calculate_size defaultOptionsWriter 95 1 300 := by
  have h1 : calculate_size defaultOptionsWriter 95 1 300 = (377, 200) := by
    norm_num [calculate_size, defaultOptionsWriter, splitlinesCount, py_int, mm2px, pt2mm]
  have h2 : spec_calculate_size defaultOptionsWriter 95 1 300 = (377, 177) := by
    norm_num [spec_calculate_size, text_block_height, defaultOptionsWriter,
      splitlinesCount, py_int, mm2px, pt2mm]
  rw [h1, h2]
  decide

/-- C2 (amended): `calculate_size` returns exactly
`int(mm2px(2*quiet_zone + modules_per_line*module_width))` for the
width and `int(mm2px(2.0 + module_height*number_of_lines + text block
height))` for the height — the code adds a constant 2.0 mm to the
height on top of the terms the spec names. -/
theorem calculate_size_closed_form (w : Writer) (m n : ℕ) (dpi : ℚ) :
    calculate_size w m n dpi =
      (py_int (mm2px (2 * w.quiet_zone + (m : ℚ) * w.module_width) dpi),
       py_int (mm2px (2 + w.module_height * (n : ℚ) + text_block_height w dpi) dpi)) := by
  simp only [calculate_size, text_block_height, Prod.mk.injEq]
  refine ⟨trivial, ?_⟩
  split_ifs with h
  · congr 1
    unfold mm2px
    ring
  · congr 1
    unfold mm2px
    ring

/-- C3 counterexample: with module_width 0.2 mm, quiet_zone 6.5 mm,
95 modules and DPI 300 the code returns `int(377.95...) = 377` while
the claim's `round(...)` is 378. -/
theorem calculate_size_width_ne_round :
    (calculate_size defaultOptionsWriter 95 1 300).1 ≠
      round (mm2px (2 * 6.5 + 95 * 0.2) 300) := by
  have h1 : (calculate_size defaultOptionsWriter 95 1 300).1 = 377 := by
    norm_num [calculate_size, defaultOptionsWriter, splitlinesCount, py_int, mm2px, pt2mm]
  have h2 : round (mm2px (2 * 6.5 + 95 * 0.2) 300) = 378 := by
    rw [mm2px, round_eq]
    norm_num
  rw [h1, h2]
  decide

/-- C3 (amended): with module_width 0.2 mm, quiet_zone 6.5 mm, 95
modules and DPI 300 the pixel width returned by `calculate_size` is the
millimetre width converted by `mm*dpi/25.4` and truncated by `int(...)`
(not rounded), namely 377. -/
theorem calculate_size_width_95_300 :
    (calculate_size defaultOptionsWriter 95 1 300).1 =
        py_int (mm2px (2 * 6.5 + 95 * 0.2) 300) ∧
      py_int (mm2px (2 * 6.5 + 95 * 0.2) 300) = 377 := by
  constructor
  · norm_num [calculate_size, defaultOptionsWriter, splitlinesCount, py_int, mm2px, pt2mm]
  · norm_num [py_int, mm2px]

/-- C4 counterexample: with `write_text = false` but a non-empty text
(`"X"`) and font_size 10, `calculate_size` still includes the text
block in the height (273 px instead of the text-free 200 px): the code
tests `font_size and text`, never `write_text`. -/
theorem calculate_size_ignores_write_text :
    (calculate_size writerNoWriteText 95 1 300).2 ≠
      py_int (mm2px (2 + writerNoWriteText.module_height * ((1 : ℕ) : ℚ)) 300) := by
  have h1 : (calculate_size writerNoWriteText 95 1 300).2 = 273 := by
    have hx1 : ¬("X" : String) = "" := by decide
    have hx2 : ¬('X' = '\n') := by decide
    norm_num [calculate_size, writerNoWriteText, defaultOptionsWriter, splitlinesCount,
      py_int, mm2px, pt2mm, hx1, hx2, List.count_cons, List.count_nil]
  have h2 : py_int (mm2px (2 + writerNoWriteText.module_height * ((1 : ℕ) : ℚ)) 300) = 200 := by
    norm_num [writerNoWriteText, defaultOptionsWriter, py_int, mm2px]
  rw [h1, h2]
  decide

/-- C4 (amended): the text block is omitted from the height exactly
when `font_size` is zero or the text is empty (`write_text` plays no
role); when `font_size` is non-zero and the text non-empty the height
adds `pt2mm(font_size)/(2*dpi/200)` per text line, plus
`text_distance`, plus `text_line_distance` between consecutive text
lines. -/
theorem calculate_size_text_block_cond (w : Writer) (m n : ℕ) (dpi : ℚ) :
    ((w.font_size = 0 ∨ w.text = "") →
      (calculate_size w m n dpi).2 =
        py_int (mm2px (2 + w.module_height * (n : ℚ)) dpi)) ∧
    (w.font_size ≠ 0 → w.text ≠ "" →
      (calculate_size w m n dpi).2 =
        py_int (mm2px (2 + w.module_height * (n : ℚ)
          + (pt2mm w.font_size / (2 * dpi / 200) * (splitlinesCount w.text : ℚ)
            + w.text_distance
            + w.text_line_distance * ((splitlinesCount w.text : ℚ) - 1))) dpi)) := by
  constructor
  · intro h
    have hcond : ¬(w.font_size ≠ 0 ∧ w.text ≠ "") := by tauto
    simp only [calculate_size, if_neg hcond]
    congr 1
    unfold mm2px
    ring
  · intro h1 h2
    simp only [calculate_size, if_pos (And.intro h1 h2)]
    congr 1
    unfold mm2px
    ring

/-- Witness for C4 at the fresh base writer (empty text: block omitted)
and at `writerNoWriteText` (font_size 10, text `"X"`: block added). -/
theorem calculate_size_text_block_cond_instance :
    ((calculate_size baseWriterInit 95 1 300).2 =
        py_int (mm2px (2 + baseWriterInit.module_height * ((1 : ℕ) : ℚ)) 300)) ∧
      ((calculate_size writerNoWriteText 95 1 300).2 =
        py_int (mm2px (2 + writerNoWriteText.module_height * ((1 : ℕ) : ℚ)
          + (pt2mm writerNoWriteText.font_size / (2 * 300 / 200)
              * (splitlinesCount writerNoWriteText.text : ℚ)
            + writerNoWriteText.text_distance
            + writerNoWriteText.text_line_distance
              * ((splitlinesCount writerNoWriteText.text : ℚ) - 1))) 300)) :=
  ⟨(calculate_size_text_block_cond baseWriterInit 95 1 300).1 (Or.inr rfl),
   (calculate_size_text_block_cond writerNoWriteText 95 1 300).2
     (by simp [writerNoWriteText, defaultOptionsWriter]) (by decide)⟩

theorem set_options_sets_supported_file_types :
    set_options svgWriterInit [("supported_file_types", OptVal.strList ["SVG", "PNG"])]
      = Except.ok { svgWriterInit with supported_file_types := ["SVG", "PNG"] } := rfl

theorem set_options_overwrites_render :
    set_options svgWriterInit [("render", OptVal.num 1)]
      = Except.ok (setInstanceAttr svgWriterInit "render" (OptVal.num 1)) := rfl

theorem set_options_file_type_value_error :
    set_options svgWriterInit [("_file_type", OptVal.str "PNG")]
      = Except.error (PyValueError.valueError "PNG") := rfl

/-- C5 counterexample: `set_options` applied to an unrecognized key
returns the writer unchanged and raises nothing — the option is
silently dropped; no `UnsupportedOption` error exists anywhere in the
code's control flow (the only exception `set_options` can propagate is
the `file_type` setter's `ValueError`, for a recognized key). -/
theorem set_options_drops_unknown_key :
    set_options svgWriterInit [("unknown_option", OptVal.num 1)]
      = Except.ok svgWriterInit := rfl

/-- C5 (amended): a key that (after stripping leading underscores)
matches no attribute of the writer — neither an option field, nor
`compress`/`dpi`/`supported_file_types`, nor the `file_type` property,
nor a public method — leaves the writer completely unchanged, silently
and without any error; `set_options` never surfaces an unknown key to
the caller. -/
theorem setOption_unknown_id (st : WriterState) (key : String) (v : OptVal)
    (h : lstripUnderscore key ∉ svgWriterHasattrNames) :
    setOption st key v = Except.ok st ∧
      set_options st [(key, v)] = Except.ok st := by
  simp only [svgWriterHasattrNames, writerAttrNames, baseWriterMethodNames,
    List.cons_append, List.nil_append, List.mem_cons, List.not_mem_nil,
    or_false, not_or] at h
  obtain ⟨h1, h2, h3, h4, h5, h6, h7, h8, h9, h10, h11, h12, h13, h14, h15, h16,
    h17, h18, h19, h20, h21⟩ := h
  have hm : lstripUnderscore key ∉ baseWriterMethodNames := by
    simp only [baseWriterMethodNames, List.mem_cons, List.not_mem_nil, or_false, not_or]
    exact ⟨h17, h18, h19, h20, h21⟩
  have hone : setOption st key v = Except.ok st := by
    simp only [setOption, if_neg h1, if_neg h2, if_neg h3, if_neg h4, if_neg h5,
      if_neg h6, if_neg h7, if_neg h8, if_neg h9, if_neg h10, if_neg h11, if_neg h12,
      if_neg h13, if_neg h14, if_neg h15, if_neg h16, if_neg hm]
  exact ⟨hone, by simp only [set_options, hone]⟩

/-- Witness for C5 (amended) at the key `"unknown_option"` on a fresh
`SVGWriter`. -/
theorem setOption_unknown_id_instance :
    lstripUnderscore "unknown_option" ∉ svgWriterHasattrNames ∧
      (setOption svgWriterInit "unknown_option" (OptVal.num 1) = Except.ok svgWriterInit ∧
        set_options svgWriterInit [("unknown_option", OptVal.num 1)] = Except.ok svgWriterInit) :=
  ⟨by decide, setOption_unknown_id svgWriterInit "unknown_option" (OptVal.num 1) (by decide)⟩

/-- C6: the registry lookup of `get` is case-insensitive (its outcome
depends only on the lowercased name), and any name whose lowercased
form is not a registry key yields the typed `BarcodeNotFoundError`
rather than an unhandled fault. -/
theorem get_case_insensitive_and_unknown :
    (∀ s t : String, pyLower s = pyLower t →
      ∀ b : Symbology, get s = Except.ok b ↔ get t = Except.ok b) ∧
      ∀ name : String, BARCODE_MAP.lookup (pyLower name) = none →
        get name = Except.error (BarcodeError.barcodeNotFound name) := by
  constructor
  · intro s t h b
    simp only [get, h]
    rcases hl : List.lookup (pyLower t) BARCODE_MAP with _ | b'
    · simp [hl]
    · simp [hl]
  · intro name h
    simp only [get, h]

/-- Witness for C6 at `"EAN13"`/`"ean13"` and at `"notabarcode"`. -/
theorem get_case_insensitive_and_unknown_instance :
    (get "EAN13" = Except.ok Symbology.EAN13 ↔ get "ean13" = Except.ok Symbology.EAN13) ∧
      get "notabarcode" = Except.error (BarcodeError.barcodeNotFound "notabarcode") :=
  ⟨get_case_insensitive_and_unknown.1 "EAN13" "ean13" (by decide) Symbology.EAN13,
   get_case_insensitive_and_unknown.2 "notabarcode" (by decide)⟩

/-- C9: an `SVGWriter` render pass produces a document that does not
depend on the writer's leftover mutable document state (`_init`
overwrites it), so rendering the same (module sequence, options) pair
twice — in particular re-running on the state left by the first pass —
yields an identical vector document. -/
theorem svgRun_deterministic (w : Writer) (dpi : ℚ) (code : List (List Char))
    (st1 st2 : Option SVGDoc) :
    (svgRun w dpi st1 code).1 = (svgRun w dpi st2 code).1 ∧
      (svgRun w dpi (svgRun w dpi st1 code).2 code).1 = (svgRun w dpi st1 code).1 :=
  ⟨rfl, rfl⟩

/-- C10: whatever `render` would do and whatever text is passed,
`Barcode.write` resolves the unbound name `options` first, raises
`NameError` and writes nothing to `fp`; it can never succeed. -/
theorem Barcode_write_always_nameError (renderFn : String → Except PyExc String)
    (text : Option String) :
    Barcode_write renderFn text = ([], Except.error (PyExc.nameError "options")) := rfl

theorem lineBlockFrom_shift (w : Writer) (y : ℚ) (m : ℕ) (p : ℕ × List Char) :
    lineBlockFrom w y (m + 1) (p.1 + 1, p.2) = lineBlockFrom w (y + w.module_height) m p := by
  have hy : y + ((p.1 + 1 : ℕ) : ℚ) * w.module_height
      = y + w.module_height + (p.1 : ℚ) * w.module_height := by push_cast; ring
  have hcond : (p.1 + 1 + 1 ≠ m + 1) = (p.1 + 1 ≠ m) :=
    propext (by constructor <;> intro h <;> omega)
  simp only [lineBlockFrom, hy, hcond]

theorem renderLines_events (w : Writer) (code : List (List Char)) :
    ∀ y b e : ℚ,
      (renderLines w y b e code).1 =
        (((List.range code.length).zip code).map (lineBlockFrom w y code.length)).flatten := by
  induction code with
  | nil => intro y b e; rfl
  | cons l rest ih =>
    intro y b e
    have hfun : ∀ p : ℕ × List Char,
        (lineBlockFrom w y (rest.length + 1) ∘ Prod.map Nat.succ id) p
          = lineBlockFrom w (y + w.module_height) rest.length p := by
      intro p
      cases p with
      | mk i line => exact lineBlockFrom_shift w y rest.length (i, line)
    by_cases hr : rest = []
    · subst hr
      have hz : (List.range (List.length [l])).zip [l] = [(0, l)] := rfl
      rw [hz]
      simp [renderLines, lineBlockFrom]
    · simp only [renderLines, if_pos hr, List.length_cons]
      rw [ih (y + w.module_height) w.quiet_zone
          (modulesEvents w y (mlist l) w.quiet_zone).2,
        List.range_succ_eq_map, List.zip_cons_cons, List.zip_map_left,
        List.map_cons, List.flatten_cons, List.map_map,
        List.map_congr_left (fun p _ => hfun p)]
      have hhead : lineBlockFrom w y (rest.length + 1) (0, l) =
          (modulesEvents w y (mlist l) w.quiet_zone).1 ++
            [PaintEvent.module ((modulesEvents w y (mlist l) w.quiet_zone).2) y
              w.quiet_zone w.background] := by
        have hm : rest.length ≠ 0 := fun hlen => hr (List.length_eq_zero.mp hlen)
        have h0 : (0 : ℕ) + 1 ≠ rest.length + 1 := by omega
        simp only [lineBlockFrom]
        rw [if_pos h0]
        simp
      rw [hhead, List.append_assoc]

/-- C7: the paint events of `BaseWriter.render`'s line loop decompose
into per-line blocks: line `i` is painted at vertical position
`1 + i*module_height` (so the vertical cursor advances by exactly
`module_height` per line), and every block except the last one ends
with a single trailing background event of `quiet_zone` width placed
right after the line's modules. -/
theorem renderLines_blocks (w : Writer) (code : List (List Char)) :
    (renderLines w 1 0 0 code).1 =
      (((List.range code.length).zip code).map (lineBlockFrom w 1 code.length)).flatten :=
  renderLines_events w code 1 0 0

theorem modulesEvents_xpos (w : Writer) (ypos : ℚ) (ms : List ℤ) :
    ∀ x : ℚ, (modulesEvents w ypos ms x).2 = x + w.module_width * (sumAbs ms : ℚ) := by
  induction ms with
  | nil =>
    intro x
    simp [modulesEvents, sumAbs]
  | cons m ms ih =>
    intro x
    simp only [modulesEvents, ih, sumAbs, List.map_cons, List.sum_cons]
    push_cast
    ring

theorem renderLines_snd_cons (w : Writer) (y b e : ℚ) (line : List Char)
    (rest : List (List Char)) :
    (renderLines w y b e (line :: rest)).2 =
      (renderLines w (y + w.module_height) w.quiet_zone
        (modulesEvents w y (mlist line) w.quiet_zone).2 rest).2 := rfl

theorem renderLines_bx (w : Writer) (rest : List (List Char)) :
    ∀ (line : List Char) (y b e : ℚ),
      (renderLines w y b e (line :: rest)).2.2 =
        (w.quiet_zone,
         w.quiet_zone + w.module_width * (sumAbs (mlist (rest.getLastD line)) : ℚ)) := by
  induction rest with
  | nil =>
    intro line y b e
    rw [renderLines_snd_cons w y b e line []]
    have hid : (renderLines w (y + w.module_height) w.quiet_zone
        (modulesEvents w y (mlist line) w.quiet_zone).2 []).2.2
        = (w.quiet_zone, (modulesEvents w y (mlist line) w.quiet_zone).2) := rfl
    rw [hid, modulesEvents_xpos w y (mlist line) w.quiet_zone]
    rfl
  | cons l2 rest' ih =>
    intro line y b e
    rw [renderLines_snd_cons w y b e line (l2 :: rest')]
    rw [ih l2 (y + w.module_height) w.quiet_zone
      (modulesEvents w y (mlist line) w.quiet_zone).2]
    rw [List.getLastD_cons]

/-- C8: when text is painted (`text` non-empty, `code` non-empty with a
binary last line), the single `paint_text` event of
`BaseWriter.render` sits horizontally at the midpoint
`bxs + (bxe - bxs)/2` of the barcode body — from the end of the left
quiet zone (`bxs = quiet_zone`) to the end of the painted modules
(`bxe = quiet_zone + module_width * length of the line`) — when
`center_text` is set, and at the body start `bxs` otherwise. -/
theorem render_text_position (w : Writer) (line : List Char) (rest : List (List Char))
    (ht : w.text ≠ "") (hbin : ∀ x ∈ rest.getLastD line, x = '0' ∨ x = '1') :
    ∃ ypos,
      render w (line :: rest) =
        (renderLines w 1 0 0 (line :: rest)).1 ++
          [PaintEvent.text
            (if w.center_text then
              w.quiet_zone +
                ((w.quiet_zone + w.module_width * ((rest.getLastD line).length : ℚ))
                  - w.quiet_zone) / 2
             else w.quiet_zone)
            ypos] := by
  refine ⟨(renderLines w 1 0 0 (line :: rest)).2.1 + w.text_distance, ?_⟩
  have hbx := renderLines_bx w rest line 1 0 0
  have h1 : (renderLines w 1 0 0 (line :: rest)).2.2.1 = w.quiet_zone := by
    rw [hbx]
  have h2 : (renderLines w 1 0 0 (line :: rest)).2.2.2
      = w.quiet_zone + w.module_width * ((rest.getLastD line).length : ℚ) := by
    rw [hbx, sumAbs_mlist _ hbin]
  simp only [render]
  rw [if_pos ht, h1, h2]

/-- Witness for C8: default options with text `"x"` on the single line
`"10"`. -/
theorem render_text_position_instance :
    ∃ ypos,
      render textWriter [['1', '0']] =
        (renderLines textWriter 1 0 0 [['1', '0']]).1 ++
          [PaintEvent.text
            (if textWriter.center_text then
              textWriter.quiet_zone +
                ((textWriter.quiet_zone + textWriter.module_width * ((2 : ℕ) : ℚ))
                  - textWriter.quiet_zone) / 2
             else textWriter.quiet_zone)
            ypos] :=
  render_text_position textWriter ['1', '0'] [] (by decide) (by decide)

end PyBarcode



